import Mathlib

/-!
Verification of `src/scripts/upload_pricing_research.py` from the
`ai-music-studio` repository.

The script is a one-shot loader: it reads a JSON tree, stamps upload
metadata into it, and issues a fixed sequence of document writes to a
document database.  We embed it shallowly:

* JSON values are the inductive `Json`; Python dicts are association
  lists that keep insertion order (`setKey` replaces in place, appends
  fresh keys at the end, exactly like CPython dict assignment and
  `{**d, k: v}` literals).
* `datetime.utcnow()` is a logical clock: the n-th call of a run
  returns tick `t0 + n` wrapped as `Json.time`.
* Each `doc_ref.set(...)` becomes an entry appended to a write trace;
  a `failAt` parameter injects a failure at a chosen write ordinal to
  model a remote-write error, which the script never catches.
* `print` calls append to a print trace.
* Python `KeyError`/`TypeError` on dict access, `**` spread, `.items()`
  and `len(...)` become `Except String` errors that abort the run while
  keeping the trace accumulated so far (`EStateM`-style result pair).

The file read / JSON parse step is outside the embedding: the input
tree is the parameter of `runUpload`.
-/

/-- JSON-like values, with a dedicated constructor for the timestamps the
script obtains from `datetime.utcnow()`. Objects are insertion-ordered
association lists, matching CPython dict semantics. -/
inductive Json where
  | null : Json
  | bool : Bool → Json
  | num : Int → Json
  | str : String → Json
  | time : Nat → Json
  | arr : List Json → Json
  | obj : List (String × Json) → Json

/-- Whether a value is a JSON object (a Python dict). -/
def Json.isObj : Json → Bool
  | .obj _ => true
  | _ => false

/-- The key-value list of an object, `[]` on non-objects. -/
def objOf : Json → List (String × Json)
  | .obj kvs => kvs
  | _ => []

/-- Ordered-dict lookup: value of the first entry with the given key. -/
def getVal : List (String × Json) → String → Option Json
  | [], _ => none
  | (k, v) :: rest, key => if k = key then some v else getVal rest key

/-- Dict item read `j[k]` as an optional value. -/
def jget (j : Json) (k : String) : Option Json :=
  match j with
  | .obj kvs => getVal kvs k
  | _ => none

/-- Dict assignment `d[k] = v`: replace the value in place if the key is
present (keeping its position), otherwise append the new key at the end.
This is CPython dict-update order. -/
def setKey : List (String × Json) → String → Json → List (String × Json)
  | [], k, v => [(k, v)]
  | (k0, v0) :: rest, k, v =>
      if k0 = k then (k0, v) :: rest else (k0, v0) :: setKey rest k v

/-- Semantics of a Python dict literal `{**base, k1: v1, ...}`: fold the
explicit entries over the spread base with dict-update order. -/
def dictExtend (base : List (String × Json)) (adds : List (String × Json)) :
    List (String × Json) :=
  adds.foldl (fun acc kv => setKey acc kv.1 kv.2) base

/-- Python item assignment `j[k] = v` on a JSON value: succeeds only on
objects; on anything else CPython raises `TypeError`. -/
def setItem (j : Json) (k : String) (v : Json) : Except String Json :=
  match j with
  | .obj kvs => .ok (.obj (setKey kvs k v))
  | _ => .error "TypeError: item assignment"

/-- Python item read `j[k]`: `KeyError` if the key is absent, `TypeError`
when the value is not subscriptable by a string. -/
def getItemE (j : Json) (k : String) : Except String Json :=
  match j with
  | .obj kvs =>
      match getVal kvs k with
      | some v => .ok v
      | none => .error ("KeyError: " ++ k)
  | _ => .error "TypeError: not subscriptable"

/-- View a value as a dict's item list, as `.items()` iteration and `**`
spread require; raises on non-dicts. -/
def asObjItems (j : Json) (msg : String) : Except String (List (String × Json)) :=
  match j with
  | .obj kvs => .ok kvs
  | _ => .error msg

/-- Python `len(...)` on the JSON values that support it. -/
def pyLen (j : Json) : Except String Nat :=
  match j with
  | .arr xs => .ok xs.length
  | .str s => .ok s.length
  | .obj kvs => .ok kvs.length
  | _ => .error "TypeError: object has no len"

/-- A Firestore document path as the list of its segments. -/
abbrev DocPath := List String

/-- Destination of the main research document. -/
def mainPath : DocPath := ["ai_music_studio", "pricing_strategy", "research", "v1_2026_01_05"]

/-- Destination of one tier document. -/
def tierPath (name : String) : DocPath := ["ai_music_studio", "pricing_strategy", "tiers", name]

/-- Destination of the competitor-analysis document. -/
def competitorsPath : DocPath := ["ai_music_studio", "pricing_strategy", "competitors", "analysis_2026_01_05"]

/-- Destination of the B2B API pricing document. -/
def b2bPath : DocPath := ["ai_music_studio", "pricing_strategy", "b2b_models", "api_pricing"]

/-- Destination of the white-label reseller document. -/
def whiteLabelPath : DocPath := ["ai_music_studio", "pricing_strategy", "b2b_models", "white_label"]

/-- Destination of the key-insights document. -/
def insightsPath : DocPath := ["ai_music_studio", "pricing_strategy", "analytics", "key_insights"]

/-- Destination of the top-level index document. -/
def indexPath : DocPath := ["ai_music_studio", "pricing_strategy"]

/-- One issued-and-completed destination write. -/
structure Write where
  path : DocPath
  data : Json

/-- Observable state of a run: successful writes in issue order, console
lines in print order, and the logical clock feeding `utcnow`. -/
structure Trace where
  writes : List Write
  prints : List String
  clock : Nat

/-- One `datetime.utcnow()` call: returns the current tick, advances it. -/
def tick (tr : Trace) : Nat × Trace :=
  (tr.clock, { tr with clock := tr.clock + 1 })

/-- One `print(...)` call. -/
def doPrint (tr : Trace) (s : String) : Trace :=
  { tr with prints := tr.prints ++ [s] }

/-- One `doc_ref.set(...)` call: if the failure oracle names this write's
ordinal, the write raises (trace unchanged); otherwise the document is
appended to the trace. -/
def tryWrite (failAt : Option Nat) (tr : Trace) (p : DocPath) (d : Json) :
    Trace × Option String :=
  if failAt = some tr.writes.length then (tr, some "write failed")
  else ({ tr with writes := tr.writes ++ [⟨p, d⟩] }, none)

/-- Chain an `Except`-step into the run: an exception propagates with the
trace accumulated so far, mirroring an uncaught Python exception. -/
def withE {α : Type} (tr : Trace) (x : Except String α)
    (k : α → Trace × Option String) : Trace × Option String :=
  match x with
  | .error e => (tr, some e)
  | .ok a => k a

/-- Chain a step that already carries the trace (a write or a loop). -/
def withW (x : Trace × Option String) (k : Trace → Trace × Option String) :
    Trace × Option String :=
  match x with
  | (tr, some e) => (tr, some e)
  | (tr, none) => k tr

/-- The `for tier_name, tier_data in tiers.items():` loop of the script:
for each entry, spread the tier attributes, add `tier_id` and a fresh
`updated_at`, write to `tiers/<tier_name>`, print a confirmation. -/
def tierLoop (failAt : Option Nat) : List (String × Json) → Trace → Trace × Option String
  | [], tr => (tr, none)
  | (tierName, tierData) :: rest, tr =>
      withE tr (asObjItems tierData "TypeError: argument after ** must be a mapping") fun kvs =>
      let (t, tr) := tick tr
      withW (tryWrite failAt tr (tierPath tierName)
          (.obj (dictExtend kvs [("tier_id", .str tierName), ("updated_at", .time t)]))) fun tr =>
      tierLoop failAt rest (doPrint tr ("✓ Uploaded tier: " ++ tierName))

/-- The index document, from the literal dict in the script; `t` is the
`utcnow` tick for `last_updated` and `nSources` is `len(research_data['sources'])`. -/
def indexDoc (t : Nat) (nSources : Nat) : Json :=
  .obj [
    ("latest_version", .str "v1_2026_01_05"),
    ("last_updated", .time t),
    ("status", .str "active"),
    ("subcollections", .arr [.str "research", .str "tiers", .str "competitors",
      .str "b2b_models", .str "analytics"]),
    ("description", .str "AI Music Studio pricing strategy and monetization research"),
    ("total_sources", .num nSources)
  ]

/-- Shallow embedding of `upload_pricing_research()`: `input` is the parsed
JSON tree, `t0` the clock at the first `utcnow` call, `failAt` the ordinal
of the destination write made to fail (`none` for a clean run). Statements
follow the script's order exactly, including that the main document is
written before `tier_structure` is first accessed. -/
def runUpload (input : Json) (t0 : Nat) (failAt : Option Nat) : Trace × Option String :=
  let tr : Trace := ⟨[], [], t0⟩
  let (t, tr) := tick tr
  withE tr (setItem input "uploaded_at" (.time t)) fun rd =>
  withE tr (setItem rd "uploaded_by" (.str "claude-sonnet-4-5")) fun rd =>
  withE tr (setItem rd "version" (.str "v1.0")) fun rd =>
  withE tr (setItem rd "status" (.str "active")) fun rd =>
  withW (tryWrite failAt tr mainPath rd) fun tr =>
  let tr := doPrint tr "✓ Uploaded main research document to Firestore"
  withE tr (getItemE rd "recommended_pricing_tiers") fun rpt =>
  withE tr (getItemE rpt "tier_structure") fun tiersJ =>
  withE tr (asObjItems tiersJ "AttributeError: no attribute items") fun tiers =>
  withW (tierLoop failAt tiers tr) fun tr =>
  withE tr (getItemE rd "competitor_pricing") fun competitors =>
  let (t, tr) := tick tr
  withW (tryWrite failAt tr competitorsPath
      (.obj [("competitors", competitors), ("updated_at", .time t)])) fun tr =>
  let tr := doPrint tr "✓ Uploaded competitor analysis"
  withE tr (getItemE rd "recommended_pricing_tiers") fun rptAgain =>
  withE tr (getItemE rptAgain "b2b_api_pricing") fun b2bJ =>
  withE tr (asObjItems b2bJ "TypeError: argument after ** must be a mapping") fun b2bKvs =>
  let (t, tr) := tick tr
  withW (tryWrite failAt tr b2bPath (.obj (dictExtend b2bKvs [("updated_at", .time t)]))) fun tr =>
  let tr := doPrint tr "✓ Uploaded B2B API pricing"
  withE tr (getItemE rd "recommended_pricing_tiers") fun rptThird =>
  withE tr (getItemE rptThird "white_label_reseller") fun wlJ =>
  withE tr (asObjItems wlJ "TypeError: argument after ** must be a mapping") fun wlKvs =>
  let (t, tr) := tick tr
  withW (tryWrite failAt tr whiteLabelPath (.obj (dictExtend wlKvs [("updated_at", .time t)]))) fun tr =>
  let tr := doPrint tr "✓ Uploaded white-label pricing"
  withE tr (getItemE rd "key_insights") fun insJ =>
  withE tr (asObjItems insJ "TypeError: argument after ** must be a mapping") fun insKvs =>
  let (t, tr) := tick tr
  withW (tryWrite failAt tr insightsPath (.obj (dictExtend insKvs [("updated_at", .time t)]))) fun tr =>
  let tr := doPrint tr "✓ Uploaded key insights"
  let (t, tr) := tick tr
  withE tr (getItemE rd "sources") fun sourcesJ =>
  withE tr (pyLen sourcesJ) fun nSources =>
  withW (tryWrite failAt tr indexPath (indexDoc t nSources)) fun tr =>
  let tr := doPrint tr "✓ Created index document"
  let tr := doPrint tr "\n=== Upload Complete ==="
  let tr := doPrint tr "Firestore path: ai_music_studio/pricing_strategy"
  let tr := doPrint tr ("Total tiers: " ++ toString tiers.length)
  let tr := doPrint tr "Research version: v1_2026_01_05"
  let tr := doPrint tr "Status: Active"
  (tr, none)

/-- The four metadata assignments the script performs on the loaded tree
before the main write, with `t` the tick of the one `utcnow` call. -/
def stampKvs (kvs : List (String × Json)) (t : Nat) : List (String × Json) :=
  setKey (setKey (setKey (setKey kvs "uploaded_at" (.time t))
    "uploaded_by" (.str "claude-sonnet-4-5")) "version" (.str "v1.0")) "status" (.str "active")

/-- The document written for one tier entry at tick `t`. -/
def tierWrite (t : Nat) (p : String × Json) : Write :=
  ⟨tierPath p.1,
   .obj (dictExtend (objOf p.2) [("tier_id", .str p.1), ("updated_at", .time t)])⟩

/-- The tier documents in iteration order, ticks counting up from `t`. -/
def tierWritesList : List (String × Json) → Nat → List Write
  | [], _ => []
  | p :: rest, t => tierWrite t p :: tierWritesList rest (t + 1)

/-- Console lines of the tier loop, in iteration order. -/
def tierPrints (tiers : List (String × Json)) : List String :=
  tiers.map (fun p => "✓ Uploaded tier: " ++ p.1)

/-- Extracted shape of a well-formed input tree: the components the script
reads, in the places it reads them from. -/
structure WFInput where
  kvs : List (String × Json)
  rptKvs : List (String × Json)
  tiers : List (String × Json)
  compJ : Json
  b2bKvs : List (String × Json)
  wlKvs : List (String × Json)
  insKvs : List (String × Json)
  srcs : List Json

/-- `w` is the decomposition of `input`: `input` is an object whose expected
keys hold the components of `w`, every tier's attributes form an object
(CPython would otherwise raise on the `**` spread), and the tier names are
distinct (true of any tree parsed from JSON into Python dicts). -/
def WFInput.decomposes (w : WFInput) (input : Json) : Prop :=
  input = Json.obj w.kvs ∧
  getVal w.kvs "recommended_pricing_tiers" = some (Json.obj w.rptKvs) ∧
  getVal w.rptKvs "tier_structure" = some (Json.obj w.tiers) ∧
  w.tiers.all (fun p => p.2.isObj) = true ∧
  (w.tiers.map Prod.fst).Nodup ∧
  getVal w.kvs "competitor_pricing" = some w.compJ ∧
  getVal w.rptKvs "b2b_api_pricing" = some (Json.obj w.b2bKvs) ∧
  getVal w.rptKvs "white_label_reseller" = some (Json.obj w.wlKvs) ∧
  getVal w.kvs "key_insights" = some (Json.obj w.insKvs) ∧
  getVal w.kvs "sources" = some (Json.arr w.srcs)

/-- The five writes issued after the tier loop, in issue order, with the
clock ticks each one receives. -/
def lateWrites (w : WFInput) (t0 : Nat) : List Write :=
  [⟨competitorsPath, .obj [("competitors", w.compJ),
      ("updated_at", .time (t0 + 1 + w.tiers.length))]⟩,
   ⟨b2bPath, .obj (dictExtend w.b2bKvs
      [("updated_at", .time (t0 + 1 + w.tiers.length + 1))])⟩,
   ⟨whiteLabelPath, .obj (dictExtend w.wlKvs
      [("updated_at", .time (t0 + 1 + w.tiers.length + 1 + 1))])⟩,
   ⟨insightsPath, .obj (dictExtend w.insKvs
      [("updated_at", .time (t0 + 1 + w.tiers.length + 1 + 1 + 1))])⟩,
   ⟨indexPath, indexDoc (t0 + 1 + w.tiers.length + 1 + 1 + 1 + 1) w.srcs.length⟩]

/-- All destination writes of a clean run on a well-formed tree, in issue
order: the main document, then one document per tier, then the five late
writes ending in the index document. -/
def fullWrites (w : WFInput) (t0 : Nat) : List Write :=
  ⟨mainPath, .obj (stampKvs w.kvs t0)⟩ ::
  tierWritesList w.tiers (t0 + 1) ++ lateWrites w t0

/-- All console lines of a clean run on a well-formed tree, in order. -/
def fullPrints (w : WFInput) : List String :=
  "✓ Uploaded main research document to Firestore" ::
  tierPrints w.tiers ++
  ["✓ Uploaded competitor analysis",
   "✓ Uploaded B2B API pricing",
   "✓ Uploaded white-label pricing",
   "✓ Uploaded key insights",
   "✓ Created index document",
   "\n=== Upload Complete ===",
   "Firestore path: ai_music_studio/pricing_strategy",
   "Total tiers: " ++ toString w.tiers.length,
   "Research version: v1_2026_01_05",
   "Status: Active"]

/-- Replay a write trace into a document store keyed by path: each write
fully replaces the document at its path (Firestore `set` semantics). -/
def applyWrites (ws : List Write) : DocPath → Option Json :=
  ws.foldl (fun st wr => fun p => if p = wr.path then some wr.data else st p)
    (fun _ => none)

/-- The document a path holds after replaying a write list: the data of
the last write to that path, if any. -/
def lastData (ws : List Write) (p : DocPath) : Option Json :=
  match ws with
  | [] => none
  | wr :: rest =>
      match lastData rest p with
      | some d => some d
      | none => if p = wr.path then some wr.data else none

/-- Whether a top-level key is kept when erasing the run-varying timestamp
fields `updated_at`, `uploaded_at` and `last_updated`. -/
def keepTK (k : String) : Bool :=
  !(k == "updated_at" || k == "uploaded_at" || k == "last_updated")

/-- Drop the top-level keys that hold run-varying timestamps in any
destination document: `updated_at`, `uploaded_at` and `last_updated`. -/
def stripTimeKeys (j : Json) : Json :=
  match j with
  | .obj kvs => .obj (kvs.filter (fun kv => keepTK kv.1))
  | x => x

/-- Drop only the top-level `updated_at` and `uploaded_at` keys, the two
fields the spec names when comparing re-runs. -/
def stripUpdKeys (j : Json) : Json :=
  match j with
  | .obj kvs => .obj (kvs.filter (fun kv =>
      !(kv.1 == "updated_at" || kv.1 == "uploaded_at")))
  | x => x

/-- The end-to-end example input of the specification: two tiers, one
competitor entry, one insight, two sources. -/
def exTiers : List (String × Json) :=
  [("free", Json.obj [("price", Json.num 0)]), ("pro", Json.obj [("price", Json.num 10)])]

/-- Value of `recommended_pricing_tiers` in the example input. -/
def exRpt : List (String × Json) :=
  [("tier_structure", Json.obj exTiers),
   ("b2b_api_pricing", Json.obj [("rate", Json.num 1)]),
   ("white_label_reseller", Json.obj [("fee", Json.num 500)])]

/-- Top level of the example input. -/
def exKvs : List (String × Json) :=
  [("recommended_pricing_tiers", Json.obj exRpt),
   ("competitor_pricing", Json.obj [("a", Json.num 1)]),
   ("key_insights", Json.obj [("note", Json.str "x")]),
   ("sources", Json.arr [Json.str "s1", Json.str "s2"])]

/-- The example input as a JSON value. -/
def exInput : Json := Json.obj exKvs

/-- Decomposition of the example input. -/
def exW : WFInput := ⟨exKvs, exRpt, exTiers, Json.obj [("a", Json.num 1)],
  [("rate", Json.num 1)], [("fee", Json.num 500)], [("note", Json.str "x")],
  [Json.str "s1", Json.str "s2"]⟩

/-- An input whose `recommended_pricing_tiers` object has no
`tier_structure` key. -/
def inpNoTiers : Json := Json.obj [("recommended_pricing_tiers", Json.obj [])]

/-- A well-formed input with an empty `tier_structure` mapping. -/
def e0Kvs : List (String × Json) :=
  [("recommended_pricing_tiers", Json.obj
     [("tier_structure", Json.obj []),
      ("b2b_api_pricing", Json.obj [("rate", Json.num 1)]),
      ("white_label_reseller", Json.obj [("fee", Json.num 500)])]),
   ("competitor_pricing", Json.obj [("a", Json.num 1)]),
   ("key_insights", Json.obj [("note", Json.str "x")]),
   ("sources", Json.arr [Json.str "s1"])]

/-- The empty-tier input as a JSON value. -/
def e0Input : Json := Json.obj e0Kvs

/-- Decomposition of the empty-tier input. -/
def e0W : WFInput := ⟨e0Kvs,
  [("tier_structure", Json.obj []),
   ("b2b_api_pricing", Json.obj [("rate", Json.num 1)]),
   ("white_label_reseller", Json.obj [("fee", Json.num 500)])],
  [], Json.obj [("a", Json.num 1)],
  [("rate", Json.num 1)], [("fee", Json.num 500)], [("note", Json.str "x")],
  [Json.str "s1"]⟩

/-- A well-formed input whose tier attributes and section attributes
already contain `tier_id` and `updated_at` keys of their own. -/
def cxTiers : List (String × Json) :=
  [("free", Json.obj [("price", Json.num 0), ("tier_id", Json.str "stale"),
    ("updated_at", Json.str "stale")])]

/-- Value of `recommended_pricing_tiers` in the clashing-key input. -/
def cxRpt : List (String × Json) :=
  [("tier_structure", Json.obj cxTiers),
   ("b2b_api_pricing", Json.obj [("rate", Json.num 1), ("updated_at", Json.str "stale")]),
   ("white_label_reseller", Json.obj [("fee", Json.num 500), ("updated_at", Json.str "stale")])]

/-- Top level of the clashing-key input. -/
def cxKvs : List (String × Json) :=
  [("recommended_pricing_tiers", Json.obj cxRpt),
   ("competitor_pricing", Json.obj [("a", Json.num 1)]),
   ("key_insights", Json.obj [("note", Json.str "x"), ("updated_at", Json.str "stale")]),
   ("sources", Json.arr [Json.str "s1"])]

/-- The clashing-key input as a JSON value. -/
def cxInput : Json := Json.obj cxKvs

/-- Decomposition of the clashing-key input. -/
def cxW : WFInput := ⟨cxKvs, cxRpt, cxTiers, Json.obj [("a", Json.num 1)],
  [("rate", Json.num 1), ("updated_at", Json.str "stale")],
  [("fee", Json.num 500), ("updated_at", Json.str "stale")],
  [("note", Json.str "x"), ("updated_at", Json.str "stale")],
  [Json.str "s1"]⟩

theorem getVal_setKey_self (kvs : List (String × Json)) (k : String) (v : Json) :
    getVal (setKey kvs k v) k = some v := by
  induction kvs with
  | nil => simp [setKey, getVal]
  | cons kv rest ih =>
    by_cases hk : kv.1 = k
    · simp [setKey, hk, getVal]
    · simpa [setKey, hk, getVal] using ih

theorem getVal_setKey_ne (kvs : List (String × Json)) (k key : String) (v : Json)
    (h : key ≠ k) : getVal (setKey kvs k v) key = getVal kvs key := by
  induction kvs with
  | nil => simp [setKey, getVal, Ne.symm h]
  | cons kv rest ih =>
    by_cases hk : kv.1 = k
    · simp [setKey, hk, getVal, Ne.symm h]
    · by_cases hkey : kv.1 = key
      · simp [setKey, hk, getVal, hkey, h]
      · simpa [setKey, hk, getVal, hkey] using ih

theorem getVal_stampKvs (kvs : List (String × Json)) (t : Nat) (key : String)
    (h1 : key ≠ "uploaded_at") (h2 : key ≠ "uploaded_by")
    (h3 : key ≠ "version") (h4 : key ≠ "status") :
    getVal (stampKvs kvs t) key = getVal kvs key := by
  unfold stampKvs
  rw [getVal_setKey_ne _ _ _ _ h4, getVal_setKey_ne _ _ _ _ h3,
    getVal_setKey_ne _ _ _ _ h2, getVal_setKey_ne _ _ _ _ h1]

theorem filter_setKey_false (p : String → Bool) (kvs : List (String × Json))
    (k : String) (v : Json) (h : p k = false) :
    (setKey kvs k v).filter (fun kv => p kv.1) = kvs.filter (fun kv => p kv.1) := by
  induction kvs with
  | nil => simp [setKey, h]
  | cons kv rest ih =>
    by_cases hk : kv.1 = k
    · simp [setKey, hk, h]
    · simp only [setKey, if_neg hk, List.filter_cons]
      rw [ih]

theorem tierLoop_clean (tiers : List (String × Json)) (tr : Trace)
    (h : tiers.all (fun p => p.2.isObj) = true) :
    tierLoop none tiers tr =
      ({ writes := tr.writes ++ tierWritesList tiers tr.clock,
         prints := tr.prints ++ tierPrints tiers,
         clock := tr.clock + tiers.length }, none) := by
  induction tiers generalizing tr with
  | nil => simp [tierLoop, tierWritesList, tierPrints]
  | cons p rest ih =>
    obtain ⟨name, data⟩ := p
    simp only [List.all_cons, Bool.and_eq_true] at h
    obtain ⟨hobj, hrest⟩ := h
    obtain ⟨kvs, hdata⟩ : ∃ kvs, data = Json.obj kvs := by
      cases data <;> simp [Json.isObj] at hobj ⊢
    subst hdata
    simp only [tierLoop, asObjItems, withE, tick, tryWrite, doPrint, withW,
      Option.some.injEq, reduceCtorEq, if_false, ih _ hrest]
    simp [tierWritesList, tierPrints, tierWrite, objOf, Trace.mk.injEq,
      List.append_assoc]
    omega

theorem tryWrite_miss (k : Nat) (tr : Trace) (p : DocPath) (d : Json)
    (h : ¬k = tr.writes.length) :
    tryWrite (some k) tr p d = ({ tr with writes := tr.writes ++ [⟨p, d⟩] }, none) := by
  simp [tryWrite, h]

theorem tryWrite_hit (k : Nat) (tr : Trace) (p : DocPath) (d : Json)
    (h : k = tr.writes.length) :
    tryWrite (some k) tr p d = (tr, some "write failed") := by
  simp [tryWrite, h]

theorem tierWritesList_length (tiers : List (String × Json)) (t : Nat) :
    (tierWritesList tiers t).length = tiers.length := by
  induction tiers generalizing t with
  | nil => simp [tierWritesList]
  | cons p rest ih => simp [tierWritesList, ih]

theorem tierLoop_nofail (k : Nat) (tiers : List (String × Json)) (tr : Trace)
    (h : tiers.all (fun p => p.2.isObj) = true)
    (hk : tr.writes.length + tiers.length ≤ k) :
    tierLoop (some k) tiers tr =
      ({ writes := tr.writes ++ tierWritesList tiers tr.clock,
         prints := tr.prints ++ tierPrints tiers,
         clock := tr.clock + tiers.length }, none) := by
  induction tiers generalizing tr with
  | nil => simp [tierLoop, tierWritesList, tierPrints]
  | cons p rest ih =>
    obtain ⟨name, data⟩ := p
    simp only [List.all_cons, Bool.and_eq_true] at h
    obtain ⟨hobj, hrest⟩ := h
    obtain ⟨kvs, hdata⟩ : ∃ kvs, data = Json.obj kvs := by
      cases data <;> simp [Json.isObj] at hobj ⊢
    subst hdata
    simp only [List.length_cons] at hk
    have ihx := ih (Trace.mk
        (tr.writes ++ [Write.mk (tierPath name) (Json.obj (dictExtend kvs
          [("tier_id", Json.str name), ("updated_at", Json.time tr.clock)]))])
        (tr.prints ++ ["✓ Uploaded tier: " ++ name]) (tr.clock + 1))
      hrest (by simp; omega)
    rw [tierLoop]
    simp only [asObjItems, withE, tick]
    rw [tryWrite_miss _ _ _ _ (by simp; omega)]
    simp only [withW, doPrint]
    rw [ihx]
    simp [tierWritesList, tierPrints, tierWrite, objOf, Trace.mk.injEq,
      List.append_assoc]
    omega

theorem tierLoop_fail (k : Nat) (tiers : List (String × Json)) (tr : Trace)
    (h : tiers.all (fun p => p.2.isObj) = true)
    (hk1 : tr.writes.length ≤ k) (hk2 : k < tr.writes.length + tiers.length) :
    tierLoop (some k) tiers tr =
      ({ writes := tr.writes ++ (tierWritesList tiers tr.clock).take (k - tr.writes.length),
         prints := tr.prints ++ (tierPrints tiers).take (k - tr.writes.length),
         clock := tr.clock + (k - tr.writes.length) + 1 }, some "write failed") := by
  induction tiers generalizing tr with
  | nil => simp at hk2; omega
  | cons p rest ih =>
    obtain ⟨name, data⟩ := p
    simp only [List.all_cons, Bool.and_eq_true] at h
    obtain ⟨hobj, hrest⟩ := h
    obtain ⟨kvs, hdata⟩ : ∃ kvs, data = Json.obj kvs := by
      cases data <;> simp [Json.isObj] at hobj ⊢
    subst hdata
    simp only [List.length_cons] at hk2
    rw [tierLoop]
    simp only [asObjItems, withE, tick]
    by_cases hhit : k = tr.writes.length
    · rw [tryWrite_hit _ _ _ _ (by simp [hhit])]
      simp [withW, hhit, Trace.mk.injEq]
    · have ihx := ih (Trace.mk
          (tr.writes ++ [Write.mk (tierPath name) (Json.obj (dictExtend kvs
            [("tier_id", Json.str name), ("updated_at", Json.time tr.clock)]))])
          (tr.prints ++ ["✓ Uploaded tier: " ++ name]) (tr.clock + 1))
        hrest (by simp; omega) (by simp; omega)
      rw [tryWrite_miss _ _ _ _ (by simp [hhit])]
      simp only [withW, doPrint]
      rw [ihx]
      have hsub : k - tr.writes.length = (k - (tr.writes.length + 1)) + 1 := by omega
      simp [tierWritesList, tierPrints, tierWrite, objOf, Trace.mk.injEq,
        List.append_assoc, hsub, List.take_succ_cons]
      omega

theorem runUpload_clean (w : WFInput) (input : Json) (t0 : Nat)
    (h : w.decomposes input) :
    runUpload input t0 none =
      ({ writes := fullWrites w t0, prints := fullPrints w,
         clock := t0 + 1 + w.tiers.length + 1 + 1 + 1 + 1 + 1 }, none) := by
  obtain ⟨hin, hrpt, hts, hobj, hnd, hcomp, hb2b, hwl, hins, hsrc⟩ := h
  subst hin
  have g1 := getVal_stampKvs w.kvs t0 "recommended_pricing_tiers"
    (by decide) (by decide) (by decide) (by decide)
  have g4 := getVal_stampKvs w.kvs t0 "competitor_pricing"
    (by decide) (by decide) (by decide) (by decide)
  have g8 := getVal_stampKvs w.kvs t0 "key_insights"
    (by decide) (by decide) (by decide) (by decide)
  have g9 := getVal_stampKvs w.kvs t0 "sources"
    (by decide) (by decide) (by decide) (by decide)
  have e1 : getItemE (Json.obj (stampKvs w.kvs t0)) "recommended_pricing_tiers" =
      .ok (Json.obj w.rptKvs) := by
    simp [getItemE, g1, hrpt]
  have e2 : getItemE (Json.obj w.rptKvs) "tier_structure" = .ok (Json.obj w.tiers) := by
    simp [getItemE, hts]
  have e4 : getItemE (Json.obj (stampKvs w.kvs t0)) "competitor_pricing" = .ok w.compJ := by
    simp [getItemE, g4, hcomp]
  have e6 : getItemE (Json.obj w.rptKvs) "b2b_api_pricing" = .ok (Json.obj w.b2bKvs) := by
    simp [getItemE, hb2b]
  have e7 : getItemE (Json.obj w.rptKvs) "white_label_reseller" = .ok (Json.obj w.wlKvs) := by
    simp [getItemE, hwl]
  have e8 : getItemE (Json.obj (stampKvs w.kvs t0)) "key_insights" = .ok (Json.obj w.insKvs) := by
    simp [getItemE, g8, hins]
  have e9 : getItemE (Json.obj (stampKvs w.kvs t0)) "sources" = .ok (Json.arr w.srcs) := by
    simp [getItemE, g9, hsrc]
  simp only [stampKvs] at e1 e4 e8 e9
  simp only [runUpload, tick, setItem, withE, withW, tryWrite, doPrint,
    e1, e2, e4, e6, e7, e8, e9, asObjItems, pyLen, reduceCtorEq, if_false,
    tierLoop_clean _ _ hobj]
  simp [fullWrites, lateWrites, fullPrints, stampKvs, Trace.mk.injEq, List.append_assoc]

theorem fullWrites_take (w : WFInput) (t0 j K : Nat)
    (hK : K = w.tiers.length + 1 + j) :
    (fullWrites w t0).take K =
      ⟨mainPath, .obj (stampKvs w.kvs t0)⟩ ::
      (tierWritesList w.tiers (t0 + 1) ++ (lateWrites w t0).take j) := by
  subst hK
  rw [fullWrites, List.take_append_eq_append_take,
    List.take_of_length_le (by simp [tierWritesList_length])]
  have h2 : w.tiers.length + 1 + j - (w.tiers.length + 1) = j := by omega
  simp [tierWritesList_length, h2]

theorem tierPath_injective : Function.Injective tierPath := by
  intro a b hab
  simpa [tierPath] using hab

theorem tierWritesList_paths (tiers : List (String × Json)) (t : Nat) :
    (tierWritesList tiers t).map Write.path = tiers.map (fun p => tierPath p.1) := by
  induction tiers generalizing t with
  | nil => simp [tierWritesList]
  | cons p rest ih => simp [tierWritesList, tierWrite, ih]

theorem fullWrites_paths (w : WFInput) (t0 : Nat) :
    (fullWrites w t0).map Write.path =
      (mainPath :: w.tiers.map (fun p => tierPath p.1)) ++
      [competitorsPath, b2bPath, whiteLabelPath, insightsPath, indexPath] := by
  simp [fullWrites, lateWrites, tierWritesList_paths]

theorem fullWrites_paths_nodup (w : WFInput) (t0 : Nat)
    (hnd : (w.tiers.map Prod.fst).Nodup) :
    ((fullWrites w t0).map Write.path).Nodup := by
  rw [fullWrites_paths]
  rw [List.nodup_append]
  refine ⟨?_, by decide, ?_⟩
  · rw [List.nodup_cons]
    constructor
    · simp [mainPath, tierPath]
    · have : w.tiers.map (fun p => tierPath p.1) = (w.tiers.map Prod.fst).map tierPath := by
        simp [List.map_map]
      rw [this]
      exact hnd.map tierPath_injective
  · intro x hx hy
    simp only [List.mem_cons, List.mem_map] at hx
    rcases hx with rfl | ⟨p, _, rfl⟩
    · simp [mainPath, competitorsPath, b2bPath, whiteLabelPath, insightsPath,
        indexPath] at hy
    · simp [tierPath, competitorsPath, b2bPath, whiteLabelPath, insightsPath,
        indexPath] at hy

theorem applyWrites_foldl (ws : List Write) :
    ∀ (st : DocPath → Option Json) (p : DocPath),
      (ws.foldl (fun st wr => fun q => if q = wr.path then some wr.data else st q) st) p =
        match lastData ws p with
        | some d => some d
        | none => st p := by
  induction ws with
  | nil => intro st p; simp [lastData]
  | cons wr rest ih =>
    intro st p
    simp only [List.foldl_cons, ih, lastData]
    cases lastData rest p with
    | some d => simp
    | none => by_cases hp : p = wr.path <;> simp [hp]

theorem lastData_of_not_mem (ws : List Write) (p : DocPath)
    (h : p ∉ ws.map Write.path) : lastData ws p = none := by
  induction ws with
  | nil => simp [lastData]
  | cons wr rest ih =>
    simp only [List.map_cons, List.mem_cons, not_or] at h
    simp [lastData, ih h.2, h.1]

theorem applyWrites_mem (ws : List Write) (wr : Write)
    (hnd : (ws.map Write.path).Nodup) (hmem : wr ∈ ws) :
    applyWrites ws wr.path = some wr.data := by
  rw [applyWrites, applyWrites_foldl]
  have hlast : lastData ws wr.path = some wr.data := by
    induction ws with
    | nil => simp at hmem
    | cons w0 rest ih =>
      simp only [List.map_cons, List.nodup_cons] at hnd
      rcases List.mem_cons.mp hmem with rfl | hmem2
      · have : wr.path ∉ rest.map Write.path := hnd.1
        rw [lastData, lastData_of_not_mem rest wr.path this]
        simp
      · rw [lastData, ih hnd.2 hmem2]
  rw [hlast]

theorem tierWritesList_getElem (tiers : List (String × Json)) (t i : Nat) :
    (tierWritesList tiers t)[i]? = (tiers[i]?).map (fun p => tierWrite (t + i) p) := by
  induction tiers generalizing t i with
  | nil => simp [tierWritesList]
  | cons p rest ih =>
    cases i with
    | zero => simp [tierWritesList]
    | succ n =>
      simp only [tierWritesList, List.getElem?_cons_succ, ih]
      have : t + 1 + n = t + (n + 1) := by omega
      rw [this]

theorem filter_setKey_true (p : String → Bool) (kvs : List (String × Json))
    (k : String) (v : Json) (h : p k = true) :
    (setKey kvs k v).filter (fun kv => p kv.1) =
      setKey (kvs.filter (fun kv => p kv.1)) k v := by
  induction kvs with
  | nil => simp [setKey, h]
  | cons kv rest ih =>
    by_cases hk : kv.1 = k
    · simp [setKey, hk, h, List.filter_cons]
    · by_cases hp : p kv.1 = true
      · simp [setKey, hk, List.filter_cons, hp, ih]
      · simp [setKey, hk, List.filter_cons, hp, ih]

theorem jget_stamp_uploadedAt (kvs : List (String × Json)) (t : Nat) :
    jget (Json.obj (stampKvs kvs t)) "uploaded_at" = some (Json.time t) := by
  simp [jget, stampKvs, getVal_setKey_ne, getVal_setKey_self]

theorem jget_stamp_uploadedBy (kvs : List (String × Json)) (t : Nat) :
    jget (Json.obj (stampKvs kvs t)) "uploaded_by" = some (Json.str "claude-sonnet-4-5") := by
  simp [jget, stampKvs, getVal_setKey_ne, getVal_setKey_self]

theorem jget_stamp_version (kvs : List (String × Json)) (t : Nat) :
    jget (Json.obj (stampKvs kvs t)) "version" = some (Json.str "v1.0") := by
  simp [jget, stampKvs, getVal_setKey_ne, getVal_setKey_self]

theorem jget_stamp_status (kvs : List (String × Json)) (t : Nat) :
    jget (Json.obj (stampKvs kvs t)) "status" = some (Json.str "active") := by
  simp [jget, stampKvs, getVal_setKey_self]

theorem jget_dictExtend2_snd (kvs : List (String × Json)) (a : String) (va : Json)
    (b : String) (vb : Json) :
    jget (Json.obj (dictExtend kvs [(a, va), (b, vb)])) b = some vb := by
  simp [jget, dictExtend, getVal_setKey_self]

theorem jget_dictExtend2_fst (kvs : List (String × Json)) (a : String) (va : Json)
    (b : String) (vb : Json) (h : a ≠ b) :
    jget (Json.obj (dictExtend kvs [(a, va), (b, vb)])) a = some va := by
  simp [jget, dictExtend, getVal_setKey_ne _ _ _ _ h, getVal_setKey_self]

theorem jget_dictExtend1 (kvs : List (String × Json)) (b : String) (vb : Json) :
    jget (Json.obj (dictExtend kvs [(b, vb)])) b = some vb := by
  simp [jget, dictExtend, getVal_setKey_self]

theorem filter_keepTK_uploadedAt (kvs : List (String × Json)) (v : Json) :
    (setKey kvs "uploaded_at" v).filter (fun kv => keepTK kv.1) =
      kvs.filter (fun kv => keepTK kv.1) :=
  filter_setKey_false keepTK kvs _ v (by decide)

theorem filter_keepTK_updatedAt (kvs : List (String × Json)) (v : Json) :
    (setKey kvs "updated_at" v).filter (fun kv => keepTK kv.1) =
      kvs.filter (fun kv => keepTK kv.1) :=
  filter_setKey_false keepTK kvs _ v (by decide)

theorem filter_keepTK_uploadedBy (kvs : List (String × Json)) (v : Json) :
    (setKey kvs "uploaded_by" v).filter (fun kv => keepTK kv.1) =
      setKey (kvs.filter (fun kv => keepTK kv.1)) "uploaded_by" v :=
  filter_setKey_true keepTK kvs _ v (by decide)

theorem filter_keepTK_version (kvs : List (String × Json)) (v : Json) :
    (setKey kvs "version" v).filter (fun kv => keepTK kv.1) =
      setKey (kvs.filter (fun kv => keepTK kv.1)) "version" v :=
  filter_setKey_true keepTK kvs _ v (by decide)

theorem filter_keepTK_status (kvs : List (String × Json)) (v : Json) :
    (setKey kvs "status" v).filter (fun kv => keepTK kv.1) =
      setKey (kvs.filter (fun kv => keepTK kv.1)) "status" v :=
  filter_setKey_true keepTK kvs _ v (by decide)

theorem filter_keepTK_tierId (kvs : List (String × Json)) (v : Json) :
    (setKey kvs "tier_id" v).filter (fun kv => keepTK kv.1) =
      setKey (kvs.filter (fun kv => keepTK kv.1)) "tier_id" v :=
  filter_setKey_true keepTK kvs _ v (by decide)

theorem stripTimeKeys_stampKvs (kvs : List (String × Json)) (t : Nat) :
    stripTimeKeys (Json.obj (stampKvs kvs t)) =
      Json.obj (setKey (setKey (setKey (kvs.filter (fun kv => keepTK kv.1))
        "uploaded_by" (Json.str "claude-sonnet-4-5")) "version" (Json.str "v1.0"))
        "status" (Json.str "active")) := by
  simp only [stripTimeKeys, stampKvs, filter_keepTK_status, filter_keepTK_version,
    filter_keepTK_uploadedBy, filter_keepTK_uploadedAt]

theorem stripTimeKeys_tierDoc (o : List (String × Json)) (name : String) (t : Nat) :
    stripTimeKeys (Json.obj (dictExtend o [("tier_id", Json.str name), ("updated_at", Json.time t)])) =
      Json.obj (setKey (o.filter (fun kv => keepTK kv.1)) "tier_id" (Json.str name)) := by
  simp only [dictExtend, List.foldl_cons, List.foldl_nil, stripTimeKeys,
    filter_keepTK_updatedAt, filter_keepTK_tierId]

theorem stripTimeKeys_extendUpd (o : List (String × Json)) (t : Nat) :
    stripTimeKeys (Json.obj (dictExtend o [("updated_at", Json.time t)])) =
      Json.obj (o.filter (fun kv => keepTK kv.1)) := by
  simp only [dictExtend, List.foldl_cons, List.foldl_nil, stripTimeKeys,
    filter_keepTK_updatedAt]

theorem tierWritesList_strip (tiers : List (String × Json)) (t t2 : Nat) :
    (tierWritesList tiers t).map (fun wr => (wr.path, stripTimeKeys wr.data)) =
      (tierWritesList tiers t2).map (fun wr => (wr.path, stripTimeKeys wr.data)) := by
  induction tiers generalizing t t2 with
  | nil => simp [tierWritesList]
  | cons p rest ih =>
    simp only [tierWritesList, List.map_cons, tierWrite, stripTimeKeys_tierDoc]
    rw [ih (t + 1) (t2 + 1)]

theorem runUpload_fail (w : WFInput) (input : Json) (t0 k : Nat)
    (h : w.decomposes input) (hk : k < w.tiers.length + 6) :
    ∃ ps c, runUpload input t0 (some k) =
      (Trace.mk ((fullWrites w t0).take k) ps c, some "write failed") := by
  obtain ⟨hin, hrpt, hts, hobj, hnd, hcomp, hb2b, hwl, hins, hsrc⟩ := h
  subst hin
  have g1 := getVal_stampKvs w.kvs t0 "recommended_pricing_tiers"
    (by decide) (by decide) (by decide) (by decide)
  have g4 := getVal_stampKvs w.kvs t0 "competitor_pricing"
    (by decide) (by decide) (by decide) (by decide)
  have g8 := getVal_stampKvs w.kvs t0 "key_insights"
    (by decide) (by decide) (by decide) (by decide)
  have g9 := getVal_stampKvs w.kvs t0 "sources"
    (by decide) (by decide) (by decide) (by decide)
  have e1 : getItemE (Json.obj (stampKvs w.kvs t0)) "recommended_pricing_tiers" =
      .ok (Json.obj w.rptKvs) := by
    simp [getItemE, g1, hrpt]
  have e2 : getItemE (Json.obj w.rptKvs) "tier_structure" = .ok (Json.obj w.tiers) := by
    simp [getItemE, hts]
  have e4 : getItemE (Json.obj (stampKvs w.kvs t0)) "competitor_pricing" = .ok w.compJ := by
    simp [getItemE, g4, hcomp]
  have e6 : getItemE (Json.obj w.rptKvs) "b2b_api_pricing" = .ok (Json.obj w.b2bKvs) := by
    simp [getItemE, hb2b]
  have e7 : getItemE (Json.obj w.rptKvs) "white_label_reseller" = .ok (Json.obj w.wlKvs) := by
    simp [getItemE, hwl]
  have e8 : getItemE (Json.obj (stampKvs w.kvs t0)) "key_insights" = .ok (Json.obj w.insKvs) := by
    simp [getItemE, g8, hins]
  have e9 : getItemE (Json.obj (stampKvs w.kvs t0)) "sources" = .ok (Json.arr w.srcs) := by
    simp [getItemE, g9, hsrc]
  simp only [stampKvs] at e1 e4 e8 e9
  simp only [runUpload, tick, setItem, withE, e1, e2, e4, e6, e7, e8, e9,
    asObjItems, pyLen]
  by_cases hk0 : k = 0
  · subst hk0
    rw [tryWrite_hit _ _ _ _ (by simp)]
    exact ⟨[], t0 + 1, by simp [withW]⟩
  · obtain ⟨m, rfl⟩ : ∃ m, k = m + 1 := ⟨k - 1, by omega⟩
    rw [tryWrite_miss _ _ _ _ (by simp)]
    simp only [withW, doPrint, List.nil_append]
    by_cases hm1 : m < w.tiers.length
    · rw [tierLoop_fail _ _ _ hobj (by simp) (by simp [tierWritesList_length]; try omega)]
      simp only [withW]
      refine ⟨"✓ Uploaded main research document to Firestore" ::
        (tierPrints w.tiers).take m, t0 + 1 + m + 1, ?_⟩
      have h0 : m - w.tiers.length = 0 := by omega
      simp [fullWrites, stampKvs, Trace.mk.injEq, List.take_succ_cons,
        List.take_append_eq_append_take, tierWritesList_length, h0]
    · rw [tierLoop_nofail _ _ _ hobj (by simp [tierWritesList_length]; try omega)]
      simp only [withW, doPrint]
      by_cases hm2 : m = w.tiers.length
      · subst hm2
        rw [tryWrite_hit _ _ _ _ (by simp [tierWritesList_length]; try omega)]
        rw [fullWrites_take w t0 0 _ (by omega)]
        exact ⟨"✓ Uploaded main research document to Firestore" :: tierPrints w.tiers,
          t0 + 1 + w.tiers.length + 1, by simp [withW, stampKvs, Trace.mk.injEq]⟩
      · rw [tryWrite_miss _ _ _ _ (by simp [tierWritesList_length]; try omega)]
        simp only [withW, doPrint]
        by_cases hm3 : m = w.tiers.length + 1
        · subst hm3
          rw [tryWrite_hit _ _ _ _ (by simp [tierWritesList_length]; try omega)]
          rw [fullWrites_take w t0 1 _ (by omega)]
          exact ⟨"✓ Uploaded main research document to Firestore" :: tierPrints w.tiers ++
              ["✓ Uploaded competitor analysis"],
            t0 + 1 + w.tiers.length + 1 + 1,
            by simp [withW, stampKvs, Trace.mk.injEq, lateWrites, List.append_assoc]⟩
        · rw [tryWrite_miss _ _ _ _ (by simp [tierWritesList_length]; try omega)]
          simp only [withW, doPrint]
          by_cases hm4 : m = w.tiers.length + 2
          · subst hm4
            rw [tryWrite_hit _ _ _ _ (by simp [tierWritesList_length]; try omega)]
            rw [fullWrites_take w t0 2 _ (by omega)]
            exact ⟨"✓ Uploaded main research document to Firestore" :: tierPrints w.tiers ++
                ["✓ Uploaded competitor analysis", "✓ Uploaded B2B API pricing"],
              t0 + 1 + w.tiers.length + 1 + 1 + 1,
              by simp [withW, stampKvs, Trace.mk.injEq, lateWrites, List.append_assoc]⟩
          · rw [tryWrite_miss _ _ _ _ (by simp [tierWritesList_length]; try omega)]
            simp only [withW, doPrint]
            by_cases hm5 : m = w.tiers.length + 3
            · subst hm5
              rw [tryWrite_hit _ _ _ _ (by simp [tierWritesList_length]; try omega)]
              rw [fullWrites_take w t0 3 _ (by omega)]
              exact ⟨"✓ Uploaded main research document to Firestore" :: tierPrints w.tiers ++
                  ["✓ Uploaded competitor analysis", "✓ Uploaded B2B API pricing",
                   "✓ Uploaded white-label pricing"],
                t0 + 1 + w.tiers.length + 1 + 1 + 1 + 1,
                by simp [withW, stampKvs, Trace.mk.injEq, lateWrites, List.append_assoc]⟩
            · have hm6 : m = w.tiers.length + 4 := by omega
              subst hm6
              rw [tryWrite_miss _ _ _ _ (by simp [tierWritesList_length]; try omega)]
              simp only [withW, doPrint]
              rw [tryWrite_hit _ _ _ _ (by simp [tierWritesList_length]; try omega)]
              rw [fullWrites_take w t0 4 _ (by omega)]
              exact ⟨"✓ Uploaded main research document to Firestore" :: tierPrints w.tiers ++
                  ["✓ Uploaded competitor analysis", "✓ Uploaded B2B API pricing",
                   "✓ Uploaded white-label pricing", "✓ Uploaded key insights"],
                t0 + 1 + w.tiers.length + 1 + 1 + 1 + 1 + 1,
                by simp [withW, stampKvs, Trace.mk.injEq, lateWrites, List.append_assoc]⟩

theorem exW_decomposes : exW.decomposes exInput :=
  ⟨rfl, rfl, rfl, rfl, by decide, rfl, rfl, rfl, rfl, rfl⟩

theorem e0W_decomposes : e0W.decomposes e0Input :=
  ⟨rfl, rfl, rfl, rfl, by decide, rfl, rfl, rfl, rfl, rfl⟩

theorem cxW_decomposes : cxW.decomposes cxInput :=
  ⟨rfl, rfl, rfl, rfl, by decide, rfl, rfl, rfl, rfl, rfl⟩

/-- C1: for every well-formed input tree whose `tier_structure` mapping has
`T` keys, a successful run performs exactly `T + 6` destination writes,
each target written exactly once: the main research document, one document
per tier, the competitors, B2B API pricing, white-label and key-insights
documents, and the index document. -/
theorem claim1_write_count (w : WFInput) (input : Json) (t0 : Nat)
    (h : w.decomposes input) :
    (runUpload input t0 none).2 = none ∧
    (runUpload input t0 none).1.writes.length = w.tiers.length + 6 ∧
    ((runUpload input t0 none).1.writes.map Write.path).Nodup ∧
    (runUpload input t0 none).1.writes.map Write.path =
      (mainPath :: w.tiers.map (fun p => tierPath p.1)) ++
      [competitorsPath, b2bPath, whiteLabelPath, insightsPath, indexPath] := by
  have hnd := h.2.2.2.2.1
  rw [runUpload_clean w input t0 h]
  refine ⟨rfl, ?_, fullWrites_paths_nodup w t0 hnd, fullWrites_paths w t0⟩
  simp [fullWrites, lateWrites, tierWritesList_length]

theorem claim1_write_count_witness :
    exW.decomposes exInput ∧
    ((runUpload exInput 0 none).2 = none ∧
     (runUpload exInput 0 none).1.writes.length = exW.tiers.length + 6 ∧
     ((runUpload exInput 0 none).1.writes.map Write.path).Nodup ∧
     (runUpload exInput 0 none).1.writes.map Write.path =
       (mainPath :: exW.tiers.map (fun p => tierPath p.1)) ++
       [competitorsPath, b2bPath, whiteLabelPath, insightsPath, indexPath]) :=
  ⟨exW_decomposes, claim1_write_count exW exInput 0 exW_decomposes⟩

/-- C4: the destination writes are issued in the strict sequence main
document, tier documents in mapping order, competitors, B2B API pricing,
white-label, key insights, and the index document last; the run model is
sequential, each write completing before the next is issued. -/
theorem claim4_write_order (w : WFInput) (input : Json) (t0 : Nat)
    (h : w.decomposes input) :
    (runUpload input t0 none).2 = none ∧
    (runUpload input t0 none).1.writes =
      (Write.mk mainPath (Json.obj (stampKvs w.kvs t0)) ::
        tierWritesList w.tiers (t0 + 1)) ++ lateWrites w t0 ∧
    (lateWrites w t0).map Write.path =
      [competitorsPath, b2bPath, whiteLabelPath, insightsPath, indexPath] := by
  rw [runUpload_clean w input t0 h]
  exact ⟨rfl, rfl, by simp [lateWrites]⟩

theorem claim4_write_order_witness :
    exW.decomposes exInput ∧
    ((runUpload exInput 0 none).2 = none ∧
     (runUpload exInput 0 none).1.writes =
       (Write.mk mainPath (Json.obj (stampKvs exW.kvs 0)) ::
         tierWritesList exW.tiers 1) ++ lateWrites exW 0 ∧
     (lateWrites exW 0).map Write.path =
       [competitorsPath, b2bPath, whiteLabelPath, insightsPath, indexPath]) :=
  ⟨exW_decomposes, claim4_write_order exW exInput 0 exW_decomposes⟩

theorem getLast_fullWrites (w : WFInput) (t0 : Nat) :
    (fullWrites w t0).getLast? = some (Write.mk indexPath
      (indexDoc (t0 + 1 + w.tiers.length + 1 + 1 + 1 + 1) w.srcs.length)) := by
  rw [fullWrites, List.getLast?_append]
  simp [lateWrites]

/-- C5: the index document is the last write and its `total_sources` field
equals the length of the `sources` array of the original, pre-stamping
input tree. -/
theorem claim5_total_sources (w : WFInput) (input : Json) (t0 : Nat)
    (h : w.decomposes input) :
    (runUpload input t0 none).2 = none ∧
    jget input "sources" = some (Json.arr w.srcs) ∧
    ((runUpload input t0 none).1.writes.getLast?).map Write.path = some indexPath ∧
    ((runUpload input t0 none).1.writes.getLast?).map
      (fun wr => jget wr.data "total_sources") =
      some (some (Json.num w.srcs.length)) := by
  have hin := h.1
  have hsrc := h.2.2.2.2.2.2.2.2.2
  rw [runUpload_clean w input t0 h]
  refine ⟨rfl, ?_, ?_, ?_⟩
  · rw [hin]; simp [jget, hsrc]
  · rw [getLast_fullWrites]; rfl
  · rw [getLast_fullWrites]
    simp [indexDoc, jget, getVal]

theorem claim5_total_sources_witness :
    exW.decomposes exInput ∧
    ((runUpload exInput 0 none).2 = none ∧
     jget exInput "sources" = some (Json.arr exW.srcs) ∧
     ((runUpload exInput 0 none).1.writes.getLast?).map Write.path = some indexPath ∧
     ((runUpload exInput 0 none).1.writes.getLast?).map
       (fun wr => jget wr.data "total_sources") =
       some (some (Json.num exW.srcs.length))) :=
  ⟨exW_decomposes, claim5_total_sources exW exInput 0 exW_decomposes⟩

/-- C9: on a well-formed input with an empty `tier_structure` mapping the
run succeeds, writes exactly the six fixed documents, and the console
summary reports a total tier count of zero. -/
theorem claim9_empty_tiers (w : WFInput) (input : Json) (t0 : Nat)
    (h : w.decomposes input) (hT : w.tiers = []) :
    (runUpload input t0 none).2 = none ∧
    (runUpload input t0 none).1.writes.length = 6 ∧
    (runUpload input t0 none).1.writes.map Write.path =
      [mainPath, competitorsPath, b2bPath, whiteLabelPath, insightsPath, indexPath] ∧
    "Total tiers: 0" ∈ (runUpload input t0 none).1.prints := by
  rw [runUpload_clean w input t0 h]
  refine ⟨rfl, ?_, ?_, ?_⟩
  · simp [fullWrites, lateWrites, tierWritesList_length, hT]
  · simp [fullWrites, lateWrites, hT, tierWritesList, mainPath]
  · simp only [fullPrints, hT, tierPrints, List.length_nil, List.map_nil]
    decide

theorem claim9_empty_tiers_witness :
    (e0W.decomposes e0Input ∧ e0W.tiers = []) ∧
    ((runUpload e0Input 0 none).2 = none ∧
     (runUpload e0Input 0 none).1.writes.length = 6 ∧
     (runUpload e0Input 0 none).1.writes.map Write.path =
       [mainPath, competitorsPath, b2bPath, whiteLabelPath, insightsPath, indexPath] ∧
     "Total tiers: 0" ∈ (runUpload e0Input 0 none).1.prints) :=
  ⟨⟨e0W_decomposes, rfl⟩, claim9_empty_tiers e0W e0Input 0 e0W_decomposes rfl⟩

theorem tierWritesList_mem (tiers : List (String × Json)) (t : Nat) (wr : Write)
    (hm : wr ∈ tierWritesList tiers t) : ∃ p tt, wr = tierWrite tt p := by
  induction tiers generalizing t with
  | nil => simp [tierWritesList] at hm
  | cons p rest ih =>
    rcases List.mem_cons.mp hm with rfl | h2
    · exact ⟨p, t, rfl⟩
    · exact ih (t + 1) h2

theorem fullWrites_getElem_late (w : WFInput) (t0 j : Nat) :
    (fullWrites w t0)[w.tiers.length + 1 + j]? = (lateWrites w t0)[j]? := by
  rw [fullWrites, List.getElem?_append]
  rw [if_neg (by simp [tierWritesList_length])]
  congr 1
  simp [tierWritesList_length]

/-- C2 counterexample: on an input whose `recommended_pricing_tiers` object
lacks `tier_structure`, the run does abort with a key error, but only after
one destination write has already occurred — the main research document is
written before `tier_structure` is first read. -/
theorem claim2_counterexample :
    (runUpload inpNoTiers 0 none).2 = some "KeyError: tier_structure" ∧
    (runUpload inpNoTiers 0 none).1.writes.length = 1 :=
  ⟨rfl, rfl⟩

/-- C2 amended: if `tier_structure` is absent from the
`recommended_pricing_tiers` object, the run aborts with a missing-key
error after exactly one destination write — the main research document —
and before any tier or later write. -/
theorem claim2_amended (kvs rkvs : List (String × Json)) (t0 : Nat)
    (h1 : getVal kvs "recommended_pricing_tiers" = some (Json.obj rkvs))
    (h2 : getVal rkvs "tier_structure" = none) :
    (runUpload (Json.obj kvs) t0 none).2 = some "KeyError: tier_structure" ∧
    (runUpload (Json.obj kvs) t0 none).1.writes =
      [Write.mk mainPath (Json.obj (stampKvs kvs t0))] := by
  have g1 := getVal_stampKvs kvs t0 "recommended_pricing_tiers"
    (by decide) (by decide) (by decide) (by decide)
  have e1 : getItemE (Json.obj (stampKvs kvs t0)) "recommended_pricing_tiers" =
      .ok (Json.obj rkvs) := by
    simp [getItemE, g1, h1]
  have e2 : getItemE (Json.obj rkvs) "tier_structure" =
      .error "KeyError: tier_structure" := by
    simp [getItemE, h2]
  simp only [stampKvs] at e1
  simp only [runUpload, tick, setItem, withE, e1, e2]
  simp [tryWrite, withW, doPrint, stampKvs]

theorem claim2_amended_witness :
    (getVal [("recommended_pricing_tiers", Json.obj ([] : List (String × Json)))]
        "recommended_pricing_tiers" = some (Json.obj ([] : List (String × Json))) ∧
     getVal ([] : List (String × Json)) "tier_structure" = none) ∧
    ((runUpload (Json.obj [("recommended_pricing_tiers", Json.obj [])]) 0 none).2 =
        some "KeyError: tier_structure" ∧
     (runUpload (Json.obj [("recommended_pricing_tiers", Json.obj [])]) 0 none).1.writes =
       [Write.mk mainPath
         (Json.obj (stampKvs [("recommended_pricing_tiers", Json.obj [])] 0))]) :=
  ⟨⟨rfl, rfl⟩, claim2_amended [("recommended_pricing_tiers", Json.obj [])] [] 0 rfl rfl⟩

/-- C3 counterexample: a successful run in which a destination record other
than the index — the main research document, the first write — has no
`updated_at` field at all. -/
theorem claim3_counterexample :
    (runUpload exInput 0 none).2 = none ∧
    ((runUpload exInput 0 none).1.writes[0]?).map Write.path = some mainPath ∧
    mainPath ≠ indexPath ∧
    ((runUpload exInput 0 none).1.writes[0]?).map
      (fun wr => jget wr.data "updated_at") = some none :=
  ⟨rfl, rfl, by decide, rfl⟩

/-- C3 amended: every destination record except the main and index
documents carries an `updated_at` timestamp, and the main record carries
`uploaded_at`, `uploaded_by`, `version` and `status`. -/
theorem claim3_amended (w : WFInput) (input : Json) (t0 : Nat)
    (h : w.decomposes input) :
    (runUpload input t0 none).2 = none ∧
    (∀ wr ∈ (runUpload input t0 none).1.writes,
      wr.path ≠ mainPath → wr.path ≠ indexPath →
      ∃ t, jget wr.data "updated_at" = some (Json.time t)) ∧
    ((runUpload input t0 none).1.writes[0]?).map Write.path = some mainPath ∧
    ((runUpload input t0 none).1.writes[0]?).map
      (fun wr => (jget wr.data "uploaded_at", jget wr.data "uploaded_by",
        jget wr.data "version", jget wr.data "status")) =
      some (some (Json.time t0), some (Json.str "claude-sonnet-4-5"),
        some (Json.str "v1.0"), some (Json.str "active")) := by
  rw [runUpload_clean w input t0 h]
  refine ⟨rfl, ?_, ?_, ?_⟩
  · intro wr hwr hmain hidx
    rw [fullWrites] at hwr
    rcases List.mem_append.mp hwr with hA | hB
    · rcases List.mem_cons.mp hA with rfl | hT
      · exact absurd rfl hmain
      · obtain ⟨p, tt, rfl⟩ := tierWritesList_mem w.tiers (t0 + 1) _ hT
        exact ⟨tt, by simp [tierWrite, jget_dictExtend2_snd]⟩
    · simp only [lateWrites, List.mem_cons, List.not_mem_nil, or_false] at hB
      rcases hB with rfl | rfl | rfl | rfl | rfl
      · exact ⟨t0 + 1 + w.tiers.length, by simp [jget, getVal]⟩
      · exact ⟨t0 + 1 + w.tiers.length + 1, by simp [jget_dictExtend1]⟩
      · exact ⟨t0 + 1 + w.tiers.length + 1 + 1, by simp [jget_dictExtend1]⟩
      · exact ⟨t0 + 1 + w.tiers.length + 1 + 1 + 1, by simp [jget_dictExtend1]⟩
      · exact absurd rfl hidx
  · simp [fullWrites]
  · simp [fullWrites, jget_stamp_uploadedAt, jget_stamp_uploadedBy,
      jget_stamp_version, jget_stamp_status]

theorem claim3_amended_witness :
    exW.decomposes exInput ∧
    ((runUpload exInput 0 none).2 = none ∧
     (∀ wr ∈ (runUpload exInput 0 none).1.writes,
       wr.path ≠ mainPath → wr.path ≠ indexPath →
       ∃ t, jget wr.data "updated_at" = some (Json.time t)) ∧
     ((runUpload exInput 0 none).1.writes[0]?).map Write.path = some mainPath ∧
     ((runUpload exInput 0 none).1.writes[0]?).map
       (fun wr => (jget wr.data "uploaded_at", jget wr.data "uploaded_by",
         jget wr.data "version", jget wr.data "status")) =
       some (some (Json.time 0), some (Json.str "claude-sonnet-4-5"),
         some (Json.str "v1.0"), some (Json.str "active"))) :=
  ⟨exW_decomposes, claim3_amended exW exInput 0 exW_decomposes⟩

/-- C8: the tier fan-out follows the insertion order of the
`tier_structure` mapping — the write at position `i + 1` of the run is the
document for the `i`-th tier entry — and each tier document carries a
`tier_id` equal to the tier's key and the fresh `updated_at` tick taken
just before that write. -/
theorem claim8_tier_fanout (w : WFInput) (input : Json) (t0 : Nat)
    (h : w.decomposes input) :
    (runUpload input t0 none).2 = none ∧
    ((runUpload input t0 none).1.writes.drop 1).take w.tiers.length =
      tierWritesList w.tiers (t0 + 1) ∧
    ∀ i, i < w.tiers.length →
      ∃ name o,
        w.tiers[i]? = some (name, o) ∧
        (runUpload input t0 none).1.writes[i + 1]? = some (Write.mk (tierPath name)
          (Json.obj (dictExtend (objOf o)
            [("tier_id", Json.str name), ("updated_at", Json.time (t0 + 1 + i))]))) ∧
        jget (Json.obj (dictExtend (objOf o)
          [("tier_id", Json.str name), ("updated_at", Json.time (t0 + 1 + i))])) "tier_id" =
          some (Json.str name) ∧
        jget (Json.obj (dictExtend (objOf o)
          [("tier_id", Json.str name), ("updated_at", Json.time (t0 + 1 + i))])) "updated_at" =
          some (Json.time (t0 + 1 + i)) := by
  rw [runUpload_clean w input t0 h]
  refine ⟨rfl, ?_, ?_⟩
  · rw [fullWrites]
    have h0 : w.tiers.length - w.tiers.length = 0 := Nat.sub_self _
    simp [List.take_append_eq_append_take, tierWritesList_length, h0,
      List.take_of_length_le]
  · intro i hi
    obtain ⟨⟨name, o⟩, hp⟩ : ∃ p, w.tiers[i]? = some p :=
      ⟨w.tiers[i], List.getElem?_eq_getElem hi⟩
    refine ⟨name, o, hp, ?_, jget_dictExtend2_fst _ _ _ _ _ (by decide),
      jget_dictExtend2_snd _ _ _ _ _⟩
    rw [fullWrites, List.getElem?_append,
      if_pos (by simp [tierWritesList_length]; omega)]
    rw [List.getElem?_cons_succ, tierWritesList_getElem, hp]
    rfl

theorem claim8_tier_fanout_witness :
    exW.decomposes exInput ∧
    ((runUpload exInput 0 none).2 = none ∧
     ((runUpload exInput 0 none).1.writes.drop 1).take exW.tiers.length =
       tierWritesList exW.tiers 1 ∧
     ∀ i, i < exW.tiers.length →
       ∃ name o,
         exW.tiers[i]? = some (name, o) ∧
         (runUpload exInput 0 none).1.writes[i + 1]? = some (Write.mk (tierPath name)
           (Json.obj (dictExtend (objOf o)
             [("tier_id", Json.str name), ("updated_at", Json.time (0 + 1 + i))]))) ∧
         jget (Json.obj (dictExtend (objOf o)
           [("tier_id", Json.str name), ("updated_at", Json.time (0 + 1 + i))])) "tier_id" =
           some (Json.str name) ∧
         jget (Json.obj (dictExtend (objOf o)
           [("tier_id", Json.str name), ("updated_at", Json.time (0 + 1 + i))])) "updated_at" =
           some (Json.time (0 + 1 + i))) :=
  ⟨exW_decomposes, claim8_tier_fanout exW exInput 0 exW_decomposes⟩

/-- C10: when tier attributes or the B2B, white-label or key-insights
attributes already contain `tier_id` or `updated_at` keys, the documents
written still carry the program's own values for those fields — the
program-supplied entries are applied after the `**` spread and override the
input's values. -/
theorem claim10_override (w : WFInput) (input : Json) (t0 : Nat)
    (h : w.decomposes input)
    (i : Nat) (name : String) (o : List (String × Json))
    (hi : w.tiers[i]? = some (name, Json.obj o))
    (vt vu vb vw vi2 : Json)
    (ht : getVal o "tier_id" = some vt)
    (hu : getVal o "updated_at" = some vu)
    (hb : getVal w.b2bKvs "updated_at" = some vb)
    (hw : getVal w.wlKvs "updated_at" = some vw)
    (hi2 : getVal w.insKvs "updated_at" = some vi2) :
    (runUpload input t0 none).1.writes[i + 1]? = some (Write.mk (tierPath name)
      (Json.obj (dictExtend o
        [("tier_id", Json.str name), ("updated_at", Json.time (t0 + 1 + i))]))) ∧
    jget (Json.obj (dictExtend o
      [("tier_id", Json.str name), ("updated_at", Json.time (t0 + 1 + i))])) "tier_id" =
      some (Json.str name) ∧
    jget (Json.obj (dictExtend o
      [("tier_id", Json.str name), ("updated_at", Json.time (t0 + 1 + i))])) "updated_at" =
      some (Json.time (t0 + 1 + i)) ∧
    (runUpload input t0 none).1.writes[w.tiers.length + 1 + 1]? =
      some (Write.mk b2bPath (Json.obj (dictExtend w.b2bKvs
        [("updated_at", Json.time (t0 + 1 + w.tiers.length + 1))]))) ∧
    jget (Json.obj (dictExtend w.b2bKvs
      [("updated_at", Json.time (t0 + 1 + w.tiers.length + 1))])) "updated_at" =
      some (Json.time (t0 + 1 + w.tiers.length + 1)) ∧
    (runUpload input t0 none).1.writes[w.tiers.length + 1 + 2]? =
      some (Write.mk whiteLabelPath (Json.obj (dictExtend w.wlKvs
        [("updated_at", Json.time (t0 + 1 + w.tiers.length + 1 + 1))]))) ∧
    jget (Json.obj (dictExtend w.wlKvs
      [("updated_at", Json.time (t0 + 1 + w.tiers.length + 1 + 1))])) "updated_at" =
      some (Json.time (t0 + 1 + w.tiers.length + 1 + 1)) ∧
    (runUpload input t0 none).1.writes[w.tiers.length + 1 + 3]? =
      some (Write.mk insightsPath (Json.obj (dictExtend w.insKvs
        [("updated_at", Json.time (t0 + 1 + w.tiers.length + 1 + 1 + 1))]))) ∧
    jget (Json.obj (dictExtend w.insKvs
      [("updated_at", Json.time (t0 + 1 + w.tiers.length + 1 + 1 + 1))])) "updated_at" =
      some (Json.time (t0 + 1 + w.tiers.length + 1 + 1 + 1)) := by
  have hlen : i < w.tiers.length := (List.getElem?_eq_some.mp hi).1
  rw [runUpload_clean w input t0 h]
  refine ⟨?_, jget_dictExtend2_fst _ _ _ _ _ (by decide),
    jget_dictExtend2_snd _ _ _ _ _, ?_, jget_dictExtend1 _ _ _, ?_,
    jget_dictExtend1 _ _ _, ?_, jget_dictExtend1 _ _ _⟩
  · rw [fullWrites, List.getElem?_append,
      if_pos (by simp [tierWritesList_length]; omega)]
    rw [List.getElem?_cons_succ, tierWritesList_getElem, hi]
    rfl
  · rw [fullWrites_getElem_late w t0 1]
    rfl
  · rw [fullWrites_getElem_late w t0 2]
    rfl
  · rw [fullWrites_getElem_late w t0 3]
    rfl

theorem claim10_override_witness :
    (cxW.decomposes cxInput ∧
     cxW.tiers[0]? = some ("free", Json.obj [("price", Json.num 0),
       ("tier_id", Json.str "stale"), ("updated_at", Json.str "stale")]) ∧
     getVal [("price", Json.num 0), ("tier_id", Json.str "stale"),
       ("updated_at", Json.str "stale")] "tier_id" = some (Json.str "stale") ∧
     getVal [("price", Json.num 0), ("tier_id", Json.str "stale"),
       ("updated_at", Json.str "stale")] "updated_at" = some (Json.str "stale") ∧
     getVal cxW.b2bKvs "updated_at" = some (Json.str "stale") ∧
     getVal cxW.wlKvs "updated_at" = some (Json.str "stale") ∧
     getVal cxW.insKvs "updated_at" = some (Json.str "stale")) ∧
    ((runUpload cxInput 0 none).1.writes[0 + 1]? = some (Write.mk (tierPath "free")
       (Json.obj (dictExtend [("price", Json.num 0), ("tier_id", Json.str "stale"),
         ("updated_at", Json.str "stale")]
         [("tier_id", Json.str "free"), ("updated_at", Json.time (0 + 1 + 0))]))) ∧
     jget (Json.obj (dictExtend [("price", Json.num 0), ("tier_id", Json.str "stale"),
       ("updated_at", Json.str "stale")]
       [("tier_id", Json.str "free"), ("updated_at", Json.time (0 + 1 + 0))])) "tier_id" =
       some (Json.str "free") ∧
     jget (Json.obj (dictExtend [("price", Json.num 0), ("tier_id", Json.str "stale"),
       ("updated_at", Json.str "stale")]
       [("tier_id", Json.str "free"), ("updated_at", Json.time (0 + 1 + 0))])) "updated_at" =
       some (Json.time (0 + 1 + 0)) ∧
     (runUpload cxInput 0 none).1.writes[cxW.tiers.length + 1 + 1]? =
       some (Write.mk b2bPath (Json.obj (dictExtend cxW.b2bKvs
         [("updated_at", Json.time (0 + 1 + cxW.tiers.length + 1))]))) ∧
     jget (Json.obj (dictExtend cxW.b2bKvs
       [("updated_at", Json.time (0 + 1 + cxW.tiers.length + 1))])) "updated_at" =
       some (Json.time (0 + 1 + cxW.tiers.length + 1)) ∧
     (runUpload cxInput 0 none).1.writes[cxW.tiers.length + 1 + 2]? =
       some (Write.mk whiteLabelPath (Json.obj (dictExtend cxW.wlKvs
         [("updated_at", Json.time (0 + 1 + cxW.tiers.length + 1 + 1))]))) ∧
     jget (Json.obj (dictExtend cxW.wlKvs
       [("updated_at", Json.time (0 + 1 + cxW.tiers.length + 1 + 1))])) "updated_at" =
       some (Json.time (0 + 1 + cxW.tiers.length + 1 + 1)) ∧
     (runUpload cxInput 0 none).1.writes[cxW.tiers.length + 1 + 3]? =
       some (Write.mk insightsPath (Json.obj (dictExtend cxW.insKvs
         [("updated_at", Json.time (0 + 1 + cxW.tiers.length + 1 + 1 + 1))]))) ∧
     jget (Json.obj (dictExtend cxW.insKvs
       [("updated_at", Json.time (0 + 1 + cxW.tiers.length + 1 + 1 + 1))])) "updated_at" =
       some (Json.time (0 + 1 + cxW.tiers.length + 1 + 1 + 1))) :=
  ⟨⟨cxW_decomposes, rfl, rfl, rfl, rfl, rfl, rfl⟩,
   claim10_override cxW cxInput 0 cxW_decomposes 0 "free"
     [("price", Json.num 0), ("tier_id", Json.str "stale"), ("updated_at", Json.str "stale")]
     rfl (Json.str "stale") (Json.str "stale") (Json.str "stale") (Json.str "stale")
     (Json.str "stale") rfl rfl rfl rfl rfl⟩

/-- C6 counterexample: two clean runs of the same input started at
different clock values produce destination document lists that still
differ after erasing the `updated_at` and `uploaded_at` fields — the index
document's `last_updated` timestamp also varies between runs. -/
theorem claim6_counterexample :
    ¬ ((runUpload exInput 0 none).1.writes.map (fun wr => (wr.path, stripUpdKeys wr.data)) =
       (runUpload exInput 100 none).1.writes.map (fun wr => (wr.path, stripUpdKeys wr.data))) := by
  intro hEq
  have hA : (((runUpload exInput 0 none).1.writes.map
      (fun wr => (wr.path, stripUpdKeys wr.data))).getLast?).map
      (fun q => jget q.2 "last_updated") = some (some (Json.time 7)) := rfl
  have hB : (((runUpload exInput 100 none).1.writes.map
      (fun wr => (wr.path, stripUpdKeys wr.data))).getLast?).map
      (fun q => jget q.2 "last_updated") = some (some (Json.time 107)) := rfl
  rw [hEq, hB] at hA
  simp at hA

/-- C6 amended: two runs over the same well-formed input produce
destination documents identical at every path once the timestamp fields
`updated_at`, `uploaded_at` and `last_updated` are erased — content is
fully overwritten, never merged. -/
theorem claim6_amended (w : WFInput) (input : Json) (t0 t1 : Nat)
    (h : w.decomposes input) :
    (runUpload input t0 none).1.writes.map (fun wr => (wr.path, stripTimeKeys wr.data)) =
      (runUpload input t1 none).1.writes.map (fun wr => (wr.path, stripTimeKeys wr.data)) := by
  rw [runUpload_clean w input t0 h, runUpload_clean w input t1 h]
  simp only [fullWrites, lateWrites, List.map_append, List.map_cons, List.map_nil]
  rw [tierWritesList_strip w.tiers (t0 + 1) (t1 + 1)]
  rw [stripTimeKeys_stampKvs w.kvs t0, stripTimeKeys_stampKvs w.kvs t1,
    stripTimeKeys_extendUpd w.b2bKvs, stripTimeKeys_extendUpd w.b2bKvs,
    stripTimeKeys_extendUpd w.wlKvs, stripTimeKeys_extendUpd w.wlKvs,
    stripTimeKeys_extendUpd w.insKvs, stripTimeKeys_extendUpd w.insKvs]
  simp [stripTimeKeys, keepTK, indexDoc, List.filter]

theorem claim6_amended_witness :
    exW.decomposes exInput ∧
    (runUpload exInput 0 none).1.writes.map (fun wr => (wr.path, stripTimeKeys wr.data)) =
      (runUpload exInput 100 none).1.writes.map (fun wr => (wr.path, stripTimeKeys wr.data)) :=
  ⟨exW_decomposes, claim6_amended exW exInput 0 100 exW_decomposes⟩

/-- C7: if the destination write with ordinal `k` fails, the run stops
with that error: its trace is exactly the first `k` writes of the clean
run (so nothing after the failing write is attempted), and replaying the
trace leaves every written document at its newly written value — nothing
is rolled back or deleted. -/
theorem claim7_failfast (w : WFInput) (input : Json) (t0 k : Nat)
    (h : w.decomposes input) (hk : k < w.tiers.length + 6) :
    (runUpload input t0 (some k)).2 = some "write failed" ∧
    (runUpload input t0 (some k)).1.writes =
      (runUpload input t0 none).1.writes.take k ∧
    (runUpload input t0 (some k)).1.writes.length = k ∧
    ∀ wr ∈ (runUpload input t0 (some k)).1.writes,
      applyWrites (runUpload input t0 (some k)).1.writes wr.path = some wr.data := by
  obtain ⟨ps, c, hf⟩ := runUpload_fail w input t0 k h hk
  have hnd := h.2.2.2.2.1
  have hfull : (fullWrites w t0).length = w.tiers.length + 6 := by
    simp [fullWrites, lateWrites, tierWritesList_length]
  have hndt : (((fullWrites w t0).take k).map Write.path).Nodup := by
    have hsub : List.Sublist (((fullWrites w t0).take k).map Write.path)
        ((fullWrites w t0).map Write.path) := (List.take_sublist k _).map Write.path
    exact (fullWrites_paths_nodup w t0 hnd).sublist hsub
  rw [hf, runUpload_clean w input t0 h]
  refine ⟨rfl, rfl, ?_, ?_⟩
  · rw [List.length_take, hfull]
    omega
  · intro wr hwr
    exact applyWrites_mem _ wr hndt hwr

theorem claim7_failfast_witness :
    (exW.decomposes exInput ∧ 3 < exW.tiers.length + 6) ∧
    ((runUpload exInput 0 (some 3)).2 = some "write failed" ∧
     (runUpload exInput 0 (some 3)).1.writes =
       (runUpload exInput 0 none).1.writes.take 3 ∧
     (runUpload exInput 0 (some 3)).1.writes.length = 3 ∧
     ∀ wr ∈ (runUpload exInput 0 (some 3)).1.writes,
       applyWrites (runUpload exInput 0 (some 3)).1.writes wr.path = some wr.data) :=
  ⟨⟨exW_decomposes, by decide⟩,
   claim7_failfast exW exInput 0 3 exW_decomposes (by decide)⟩
